import Mathlib

/-!
Shallow embedding of the audio-extraction core of this repository:
`src/modules/audio_extractor/extractor.py`, its configuration
`src/config/app_config.py`, and the batch-progress aggregation in
`src/src/main_window.py`.

Modelling conventions:
* Python floats are modelled as rationals (`ℚ`); Python ints as `ℕ`/`ℤ`.
* Python strings are Lean `String`s; the Python string primitives used by
  the source (`in`, `startswith`, `split`, `strip`, `lower`) are embedded
  as executable functions over the character list of the string.
* The file system is a finite set of paths.  A path is kept in the
  structured form directory-components / stem / suffix, which is exactly
  the decomposition `pathlib.Path` operations in the source rely on
  (`.parent`, `.stem`, `.with_suffix`, `relative_to`).
* Fallible effects (subprocess runs, probing, the `relative_to` call) are
  environment inputs; code the source wraps in `try/except` is modelled by
  `Option`/`Except` values, so that every theorem about "never raises"
  is about an explicit error channel and not vacuous.
* Wall-clock fields (`processing_time`) and the Qt signal plumbing are not
  modelled; the values the signals carry are.
-/

namespace AudioExt

/-! ### Embedded Python string primitives -/

/-- `s.startswith(pre)`. -/
def pyStartsWith (pre s : String) : Bool := pre.data.isPrefixOf s.data

/-- The remainder of the list after the first occurrence of `sub`
(`none` when `sub` does not occur).  Helper for `in` and `split`. -/
def afterFirst (sub : List Char) : List Char → Option (List Char)
  | [] => none
  | c :: cs =>
    if sub.isPrefixOf (c :: cs) then some ((c :: cs).drop sub.length)
    else afterFirst sub cs

/-- The part of the list before the first occurrence of `sub`
(the whole list when `sub` does not occur). -/
def upToFirst (sub : List Char) : List Char → List Char
  | [] => []
  | c :: cs => if sub.isPrefixOf (c :: cs) then [] else c :: upToFirst sub cs

/-- `sub in s` (Python substring containment). -/
def pyIn (sub s : String) : Bool := (afterFirst sub.data s.data).isSome

/-- `s.split(sub)[1]`: the text between the first occurrence of `sub` and
the following occurrence (or the end).  `none` when `sub` does not occur,
in which case the Python indexing would raise. -/
def pySplitGet1 (sub s : String) : Option String :=
  (afterFirst sub.data s.data).map (fun rest => ⟨upToFirst sub.data rest⟩)

/-- `s.strip()`. -/
def pyStrip (s : String) : String :=
  ⟨((s.data.dropWhile Char.isWhitespace).reverse.dropWhile Char.isWhitespace).reverse⟩

/-- `s.lower()`. -/
def pyLower (s : String) : String := ⟨s.data.map Char.toLower⟩

/-- Decimal digit-string value; `none` on the empty string or any
non-digit character. -/
def digitsVal (cs : List Char) : Option ℕ :=
  if cs = [] then none
  else
    cs.foldl
      (fun acc c =>
        match acc with
        | none => none
        | some n => if c.isDigit then some (n * 10 + (c.toNat - 48)) else none)
      (some 0)

/-- Python `int(s)` on an optionally signed decimal string (surrounding
whitespace stripped, as `int` does).  Formats this model does not accept
(e.g. underscores) yield `none`, which the source treats the same way as
any other parse failure (`except: pass`). -/
def parsePyInt (s : String) : Option ℤ :=
  match (pyStrip s).data with
  | '-' :: rest => (digitsVal rest).map (fun n => -(n : ℤ))
  | '+' :: rest => (digitsVal rest).map (fun n => (n : ℤ))
  | cs => (digitsVal cs).map (fun n => (n : ℤ))

/-- Python `int()` applied to a rational: truncation toward zero. -/
def pytrunc (q : ℚ) : ℤ := if 0 ≤ q then ⌊q⌋ else ⌈q⌉

/-! ### Configuration (`src/config/app_config.py`) -/

/-- `AUDIO_EXTENSIONS` (app_config.py line 24). -/
def AUDIO_EXTENSIONS : List String :=
  [".mp3", ".wav", ".m4a", ".wma", ".aac", ".ogg", ".amr", ".flac", ".aiff"]

/-- `MAX_FILE_SIZE_MB = 500` (app_config.py line 30). -/
def MAX_FILE_SIZE_MB : ℕ := 500

/-- `self.max_file_size = MAX_FILE_SIZE_MB * 1024 * 1024` (extractor.py line 116). -/
def maxFileSize : ℕ := MAX_FILE_SIZE_MB * 1024 * 1024

/-- `SILENCE_THRESHOLD = -50.0` (extractor.py line 90). -/
def SILENCE_THRESHOLD : ℚ := -50

/-- `COMPLETE_SILENCE_THRESHOLD = -80.0` (extractor.py line 91). -/
def COMPLETE_SILENCE_THRESHOLD : ℚ := -80

/-! ### Data model (extractor.py dataclasses) -/

/-- `AudioStreamInfo` (extractor.py lines 27-34). -/
structure AudioStreamInfo where
  codec : String := "unknown"
  channels : ℕ := 0
  sample_rate : ℕ := 0
  duration : ℚ := 0
  stream_index : ℕ := 0
deriving DecidableEq

/-- `VolumeAnalysis` (extractor.py lines 37-43). -/
structure VolumeAnalysis where
  left_volume : ℚ := -60
  right_volume : ℚ := -60
  audio_type : String := "unknown"
  detection_position : String := "unknown"
deriving DecidableEq

/-- `ProcessingDecision` (extractor.py lines 46-52). -/
structure ProcessingDecision where
  can_copy_directly : Bool := false
  needs_channel_fix : Bool := false
  target_format : String := "aac"
  processing_reason : String := ""
deriving DecidableEq

/-- A filesystem path in the decomposition used by the source's
`pathlib` operations: directory components, stem, and final suffix. -/
structure FsPath where
  dir : List String
  stem : String
  ext : String
deriving DecidableEq

/-- `Path.with_suffix('.mp3')` (extractor.py line 633). -/
def mp3Sibling (p : FsPath) : FsPath := { p with ext := ".mp3" }

/-- `ProcessResult` (extractor.py lines 55-67).  `output_file = none`
models the empty-string output path of the failure records; the
wall-clock `processing_time` field is not modelled. -/
structure ProcessResult where
  success : Bool
  input_file : FsPath
  output_file : Option FsPath
  error_msg : String := ""
  audio_type : String := "unknown"
  left_volume : ℚ := -30
  right_volume : ℚ := -30
  was_copied_directly : Bool := false
  processing_decision : String := ""
deriving DecidableEq

/-! ### Audio-type classifier (`_determine_audio_type`, extractor.py lines 299-320) -/

def determineAudioType (left_vol right_vol : ℚ) : String :=
  if left_vol = -60 ∧ right_vol = -60 then "unknown"
  else if left_vol < COMPLETE_SILENCE_THRESHOLD ∧ right_vol < COMPLETE_SILENCE_THRESHOLD then
    "no_audio"
  else if left_vol < SILENCE_THRESHOLD ∧ SILENCE_THRESHOLD ≤ right_vol then
    "pseudo_stereo_right"
  else if right_vol < SILENCE_THRESHOLD ∧ SILENCE_THRESHOLD ≤ left_vol then
    "pseudo_stereo_left"
  else if SILENCE_THRESHOLD ≤ left_vol ∧ SILENCE_THRESHOLD ≤ right_vol then
    "true_stereo"
  else "mono"

/-- The classifier exactly as the claim words it, for comparison with the
embedding of the source. -/
def claimClassify (left right : ℚ) : String :=
  if left = -60 ∧ right = -60 then "unknown"
  else if left < -80 ∧ right < -80 then "no_audio"
  else if left < -50 ∧ -50 ≤ right then "pseudo_stereo_right"
  else if right < -50 ∧ -50 ≤ left then "pseudo_stereo_left"
  else if -50 ≤ left ∧ -50 ≤ right then "true_stereo"
  else "mono"

/-! ### Detection window selection (`detect_pseudo_stereo`, extractor.py lines 190-207) -/

/-- The detection plan: window length, start time, and position label,
computed from the stream duration (extractor.py lines 193-207). -/
def detectionPlan (duration : ℚ) : ℚ × ℚ × String :=
  let detection_duration := if 60 ≤ duration then 60 else min 10 (max 5 duration)
  if duration > detection_duration * (3 / 2) then
    (detection_duration, max 0 ((duration - detection_duration) / 2), "中间")
  else
    (detection_duration, 0, "开头")

/-! ### astats report parsing (`_detect_position_volumes`, extractor.py lines 237-297) -/

inductive AstatsChannel where
  | overall
  | left
  | right
deriving DecidableEq

structure AstatsState where
  current_channel : Option AstatsChannel
  left_rms : ℚ
  right_rms : ℚ
deriving DecidableEq

/-- The channel-marker tests of a single report line (extractor.py
lines 272-278). -/
def updateChannel (line : String) (c : Option AstatsChannel) : Option AstatsChannel :=
  if pyIn "Overall" line then some .overall
  else if pyIn "Channel: 1" line || pyIn "Channel 0" line || pyIn "FL" line then some .left
  else if pyIn "Channel: 2" line || pyIn "Channel 1" line || pyIn "FR" line then some .right
  else c

/-- The RMS-extraction block of one line (extractor.py lines 281-292),
after the channel markers have been applied: a line holding
`RMS level dB:` while a channel section is open assigns the parsed value
to that channel.  `parseFloat` embeds Python `float(...)`; its failure is
the inner `except: pass`. -/
def rmsUpdate (parseFloat : String → Option ℚ) (ch : Option AstatsChannel) (line : String)
    (st : AstatsState) : AstatsState :=
  if pyIn "RMS level dB:" line && ch.isSome then
    match pySplitGet1 "RMS level dB:" line with
    | some rms_str =>
      match parseFloat (pyStrip rms_str) with
      | some rms_value =>
        match ch with
        | some .left => { st with left_rms := rms_value }
        | some .right => { st with right_rms := rms_value }
        | _ => st
      | none => st
    | none => st
  else st

/-- Processing of one stderr line (extractor.py lines 269-292): strip,
apply the channel markers, then the RMS extraction. -/
def parseRmsLine (parseFloat : String → Option ℚ) (st : AstatsState) (rawLine : String) :
    AstatsState :=
  let line := pyStrip rawLine
  let ch := updateChannel line st.current_channel
  rmsUpdate parseFloat ch line { st with current_channel := ch }

/-- `_detect_position_volumes` outcome.  `stderrLines = none` models a
subprocess exception or timeout (the outer `except` at extractor.py
line 296); `some lines` is the split of the captured stderr (an empty
report behaves like the empty list). -/
def detectPositionVolumes (parseFloat : String → Option ℚ)
    (stderrLines : Option (List String)) : ℚ × ℚ :=
  match stderrLines with
  | none => (-60, -60)
  | some lines =>
    let final := lines.foldl (parseRmsLine parseFloat) ⟨none, -60, -60⟩
    (final.left_rms, final.right_rms)

/-- The report, read with the channel-section state starting at `c`,
contains no RMS line for the left channel: no line both holds
`RMS level dB:` and sits inside a left-channel section (the only
situation in which the parser assigns the left value).  This is the
claim's "the statistics report lacks an RMS line for the left
channel". -/
def noLeftRmsLine : List String → Option AstatsChannel → Bool
  | [], _ => true
  | l :: ls, c =>
    (!(pyIn "RMS level dB:" (pyStrip l) &&
        (updateChannel (pyStrip l) c == some AstatsChannel.left))) &&
      noLeftRmsLine ls (updateChannel (pyStrip l) c)

/-- Mirror of `noLeftRmsLine` for the right channel. -/
def noRightRmsLine : List String → Option AstatsChannel → Bool
  | [], _ => true
  | l :: ls, c =>
    (!(pyIn "RMS level dB:" (pyStrip l) &&
        (updateChannel (pyStrip l) c == some AstatsChannel.right))) &&
      noRightRmsLine ls (updateChannel (pyStrip l) c)

/-- `detect_pseudo_stereo` (extractor.py lines 182-235).  `raised = true`
models an exception inside its `try` body (caught at line 228). -/
def detectPseudoStereo (parseFloat : String → Option ℚ) (si : AudioStreamInfo)
    (stderrLines : Option (List String)) (raised : Bool) : VolumeAnalysis :=
  if raised then
    { left_volume := -60, right_volume := -60, audio_type := "unknown",
      detection_position := "检测失败" }
  else
    let plan := detectionPlan si.duration
    let volumes := detectPositionVolumes parseFloat stderrLines
    { left_volume := volumes.1, right_volume := volumes.2,
      audio_type := determineAudioType volumes.1 volumes.2,
      detection_position := plan.2.2 }

/-! ### Processing decision (`make_processing_decision`, extractor.py lines 324-395) -/

def makeProcessingDecision (si : AudioStreamInfo) (va : VolumeAnalysis) : ProcessingDecision :=
  let original_ext :=
    if ["aac", "mp3", "ac3"].contains si.codec then "." ++ si.codec else ".aac"
  let format_supported := AUDIO_EXTENSIONS.contains (pyLower original_ext)
  let needs_channel_fix := ["pseudo_stereo_left", "pseudo_stereo_right"].contains va.audio_type
  let can_copy_directly :=
    (va.audio_type == "true_stereo") && decide (2 ≤ si.channels) && format_supported &&
      !(pyStartsWith "pcm_" si.codec)
  let target_format :=
    if can_copy_directly then si.codec
    else if format_supported && !needs_channel_fix then si.codec
    else "aac"
  let reasons : List String :=
    if va.audio_type == "no_audio" then ["视频无音频"]
    else if va.audio_type == "unknown" then ["音频检测失败"]
    else if needs_channel_fix then ["伪立体声合并声道(" ++ va.audio_type ++ ")"]
    else if !format_supported then ["格式不支持(" ++ si.codec ++ ")"]
    else if pyStartsWith "pcm_" si.codec then ["PCM需要转码"]
    else if can_copy_directly then ["直接复制音频流"]
    else ["标准转码"]
  { can_copy_directly := can_copy_directly
    needs_channel_fix := needs_channel_fix
    target_format := target_format
    processing_reason := String.intercalate "; " reasons }

/-- The `-c:a` codec argument of the ffmpeg invocation built by
`_execute_audio_processing` (extractor.py lines 495-544): `copy` for a
direct copy, `aac` for the channel-fix filter run, and otherwise the
decision's target format. -/
def executionCodecArg (decision : ProcessingDecision) : String :=
  if decision.can_copy_directly then "copy"
  else if decision.needs_channel_fix then "aac"
  else decision.target_format

/-! ### Output path (`_get_output_path`, extractor.py lines 664-680) -/

/-- Batch configuration (constructor arguments, extractor.py lines 93-102).
`input_dir`/`output_dir` are directory component lists. -/
structure Config where
  input_dir : List String
  output_dir : List String
  same_folder : Bool
  keep_structure : Bool
  skip_existing : Bool
deriving DecidableEq

/-- `_get_output_path`.  `none` models the `ValueError` that
`Path.relative_to` raises when the file is not under the input root
(uncaught there, caught by `extract_audio`'s outer handler). -/
def getOutputPath (cfg : Config) (video : FsPath) (target_format : String) : Option FsPath :=
  let ext :=
    if ["aac", "mp3", "ac3", "flac", "ogg", "wav"].contains target_format then
      "." ++ target_format
    else ".aac"
  if cfg.same_folder then some ⟨video.dir, video.stem, ext⟩
  else if cfg.keep_structure then
    if cfg.input_dir.isPrefixOf video.dir then
      some ⟨cfg.output_dir ++ video.dir.drop cfg.input_dir.length, video.stem, ext⟩
    else none
  else some ⟨cfg.output_dir, video.stem, ext⟩

/-! ### Size check (`_check_and_compress_if_needed`, extractor.py lines 620-662) -/

structure CompressOutcome where
  finalPath : FsPath
  fs : Finset FsPath
  attempted : Bool
deriving DecidableEq

/-- `_check_and_compress_if_needed`.  `size` is the produced file's size
in bytes, `compressOk` the success of the MP3 re-encode invocation.
The MP3 run first writes the sibling, then the original is unlinked;
on a failed run the original is left in place. -/
def checkAndCompress (output_file : FsPath) (fs : Finset FsPath) (size : ℕ)
    (compressOk : Bool) : CompressOutcome :=
  if output_file ∉ fs then ⟨output_file, fs, false⟩
  else if maxFileSize < size then
    if compressOk then
      ⟨mp3Sibling output_file, (insert (mp3Sibling output_file) fs).erase output_file, true⟩
    else ⟨output_file, fs, true⟩
  else ⟨output_file, fs, false⟩

/-! ### Per-file pipeline (`extract_audio`, extractor.py lines 399-484) -/

/-- The effect outcomes of one file's processing: probe result, loudness
subprocess outcome, a possible exception inside `detect_pseudo_stereo`,
the main ffmpeg invocation's success, the produced file's size, and the
MP3 re-encode invocation's success. -/
structure FileEnv where
  streamInfo : Option AudioStreamInfo
  stderrLines : Option (List String)
  detectRaised : Bool
  execSuccess : Bool
  outSize : ℕ
  compressOk : Bool
deriving DecidableEq

/-- Outcome of one `extract_audio` call: the result record, the file
system afterwards, and whether `_execute_audio_processing` ran an ffmpeg
invocation (a transcode/copy). -/
structure StepOutcome where
  result : ProcessResult
  fs : Finset FsPath
  execRan : Bool
deriving DecidableEq

/-- The failure record of extractor.py lines 406-413. -/
def probeFailResult (video : FsPath) : ProcessResult :=
  { success := false, input_file := video, output_file := none,
    error_msg := "无法获取音频流信息" }

/-- The skip record of extractor.py lines 431-442. -/
def skipResult (video out : FsPath) (va : VolumeAnalysis) : ProcessResult :=
  { success := true, input_file := video, output_file := some out,
    audio_type := va.audio_type, left_volume := va.left_volume,
    right_volume := va.right_volume, was_copied_directly := false,
    processing_decision := "跳过已存在文件" }

/-- The success record of extractor.py lines 453-463. -/
def successResult (video finalOut : FsPath) (va : VolumeAnalysis)
    (decision : ProcessingDecision) : ProcessResult :=
  { success := true, input_file := video, output_file := some finalOut,
    audio_type := va.audio_type, left_volume := va.left_volume,
    right_volume := va.right_volume,
    was_copied_directly := decision.can_copy_directly,
    processing_decision := decision.processing_reason }

/-- The execution-failure record of extractor.py lines 465-475. -/
def execFailResult (video out : FsPath) (va : VolumeAnalysis)
    (decision : ProcessingDecision) : ProcessResult :=
  { success := false, input_file := video, output_file := some out,
    error_msg := "音频处理执行失败", audio_type := va.audio_type,
    left_volume := va.left_volume, right_volume := va.right_volume,
    processing_decision := decision.processing_reason }

/-- The catch-all record of extractor.py lines 477-484. -/
def exceptionResult (video : FsPath) (e : String) : ProcessResult :=
  { success := false, input_file := video, output_file := none,
    error_msg := "音频提取异常: " ++ e }

/-- The body of `extract_audio`'s `try` block; an `Except.error` is an
exception escaping to the outer handler. -/
def extractAudioCore (parseFloat : String → Option ℚ) (cfg : Config) (video : FsPath)
    (env : FileEnv) (fs : Finset FsPath) : Except String StepOutcome :=
  match env.streamInfo with
  | none => .ok ⟨probeFailResult video, fs, false⟩
  | some si =>
    let va := detectPseudoStereo parseFloat si env.stderrLines env.detectRaised
    let decision := makeProcessingDecision si va
    match getOutputPath cfg video decision.target_format with
    | none => .error "relative_to"
    | some output_file =>
      if cfg.skip_existing ∧ output_file ∈ fs then
        .ok ⟨skipResult video output_file va, fs, false⟩
      else if env.execSuccess then
        let fs1 := insert output_file fs
        let c := checkAndCompress output_file fs1 env.outSize env.compressOk
        .ok ⟨successResult video c.finalPath va decision, c.fs, true⟩
      else .ok ⟨execFailResult video output_file va decision, fs, true⟩

/-- `extract_audio`: the `try` body together with its outer exception
handler; total, by construction. -/
def extractAudio (parseFloat : String → Option ℚ) (cfg : Config) (video : FsPath)
    (env : FileEnv) (fs : Finset FsPath) : StepOutcome :=
  match extractAudioCore parseFloat cfg video env fs with
  | .ok r => r
  | .error e => ⟨exceptionResult video e, fs, false⟩

/-! ### Worker loop (`_worker_thread`, extractor.py lines 720-755), serialized -/

structure BatchState where
  results : List ProcessResult
  fs : Finset FsPath
  processed : ℕ
  transcodes : ℕ
deriving DecidableEq

/-- One dequeued file: emit exactly one `ProcessResult` and increment the
shared `processed_files` counter once (extractor.py lines 744-751).
`transcodes` counts the files for which the execution pipeline ran. -/
def workerStep (parseFloat : String → Option ℚ) (cfg : Config) (st : BatchState)
    (item : FsPath × FileEnv) : BatchState :=
  let out := extractAudio parseFloat cfg item.1 item.2 st.fs
  { results := st.results ++ [out.result]
    fs := out.fs
    processed := st.processed + 1
    transcodes := st.transcodes + (if out.execRan then 1 else 0) }

/-- The queue drain of a batch (the worker pool serialized; the queue
itself provides mutual exclusion, and the claims under study are about
per-file counting, not interleaving). -/
def runBatch (parseFloat : String → Option ℚ) (cfg : Config)
    (files : List (FsPath × FileEnv)) (st : BatchState) : BatchState :=
  files.foldl (workerStep parseFloat cfg) st

/-! ### Progress monitoring (`_run_ffmpeg_with_progress`, extractor.py lines 571-603) -/

structure ProgressState where
  lastProgress : ℤ
  emitted : List ℤ
deriving DecidableEq

/-- One iteration of the stdout-monitoring loop.  The `Bool` of an input
item is the `current_active_file == str(video_file)` test made under the
mutex at the moment that line is handled (extractor.py lines 590-603). -/
def progressLineStep (duration : ℚ) (st : ProgressState) (item : Bool × String) :
    ProgressState :=
  if pyStartsWith "out_time_ms=" item.2 then
    match pySplitGet1 "=" item.2 with
    | some valueStr =>
      match parsePyInt valueStr with
      | some ms =>
        let current_time : ℚ := (ms : ℚ) / 1000000
        if 0 < duration then
          let progress : ℤ := min 100 (pytrunc (current_time / duration * 100))
          if st.lastProgress < progress then
            { lastProgress := progress,
              emitted := if item.1 then st.emitted ++ [progress] else st.emitted }
          else st
        else st
      | none => st
    | none => st
  else if pyStartsWith "progress=end" item.2 then
    if item.1 then { st with emitted := st.emitted ++ [100] } else st
  else st

/-- The monitoring loop over the whole stdout line sequence, starting
from `last_progress = 0` and no emissions. -/
def runFfmpegProgress (duration : ℚ) (lines : List (Bool × String)) : ProgressState :=
  lines.foldl (progressLineStep duration) ⟨0, []⟩

/-! ### Batch percentage (`update_audio_overall_progress_with_current_file`,
main_window.py lines 504-529) -/

/-- The overall-progress value computed by the observer: base progress of
the completed files plus the running file's contribution, clamped to
[0, 100].  `none` models the early return when `total_files == 0`. -/
def overallProgressValue (total_files processed_files : ℕ) (current_file_progress : ℤ) :
    Option ℚ :=
  if total_files = 0 then none
  else
    let base_progress : ℚ := ((processed_files : ℚ) / (total_files : ℚ)) * 100
    let current_file_contribution : ℚ :=
      ((current_file_progress : ℚ) / 100) * (1 / (total_files : ℚ)) * 100
    some (min 100 (max 0 (base_progress + current_file_contribution)))

/-- The integer actually handed to the progress bar (`int(overall_progress)`,
main_window.py line 526). -/
def displayedOverallProgress (total_files processed_files : ℕ)
    (current_file_progress : ℤ) : Option ℤ :=
  (overallProgressValue total_files processed_files current_file_progress).map pytrunc

/-! ### Derived notions used by the statements -/

/-- The processing decision a file's environment determines (probe result
fixed to `si`). -/
def decisionOf (parseFloat : String → Option ℚ) (si : AudioStreamInfo) (env : FileEnv) :
    ProcessingDecision :=
  makeProcessingDecision si (detectPseudoStereo parseFloat si env.stderrLines env.detectRaised)

/-- The output path `extract_audio` computes for a file, `none` when the
probe fails or the path computation raises. -/
def outPathOf (parseFloat : String → Option ℚ) (cfg : Config) (x : FsPath × FileEnv) :
    Option FsPath :=
  match x.2.streamInfo with
  | none => none
  | some si => getOutputPath cfg x.1 (decisionOf parseFloat si x.2).target_format

/-- A file whose run can only end in success: the probe and path
computation succeed, the ffmpeg invocation succeeds, and the produced
output stays within the size threshold (so the MP3 compression never
renames it). -/
def goodEnv (parseFloat : String → Option ℚ) (cfg : Config) (x : FsPath × FileEnv) : Prop :=
  x.2.execSuccess = true ∧ x.2.outSize ≤ maxFileSize ∧ (outPathOf parseFloat cfg x).isSome

/-- Invariant of the progress-monitoring loop state: every emission is in
(0, 100], consecutive emissions grow strictly except that an emitted 100
may repeat, the last emission is bounded by `last_progress`, and
`last_progress` stays within [0, 100]. -/
def progressInv (st : ProgressState) : Prop :=
  (∀ v ∈ st.emitted, 0 < v ∧ v ≤ 100) ∧
  List.Chain' (fun a b => a < b ∨ (a = 100 ∧ b = 100)) st.emitted ∧
  (∀ v, st.emitted.getLast? = some v → v ≤ st.lastProgress) ∧
  0 ≤ st.lastProgress ∧ st.lastProgress ≤ 100

/-! ### Concrete fixtures for witnesses and counterexamples -/

/-- A `float()` embedding that reads every RMS string as −20 dB; enough
for the concrete runs below, which only feed it `-20`. -/
def pfNeg20 : String → Option ℚ := fun _ => some (-20)

/-- Same-folder batch configuration with skip-existing on. -/
def cfgSame : Config :=
  { input_dir := [], output_dir := [], same_folder := true, keep_structure := true,
    skip_existing := true }

/-- A two-minute stereo AAC stream. -/
def siAac : AudioStreamInfo := ⟨"aac", 2, 44100, 120, 0⟩

/-- A file whose run succeeds and produces an oversized (600 MiB) output,
and whose MP3 re-encode succeeds as well. -/
def envOversize : FileEnv :=
  { streamInfo := some siAac,
    stderrLines := some ["Channel: 1 RMS level dB: -20", "Channel: 2 RMS level dB: -20"],
    detectRaised := false, execSuccess := true, outSize := 600 * 1024 * 1024,
    compressOk := true }

/-- The same run with a small (1 KiB) output. -/
def envSmall : FileEnv :=
  { streamInfo := some siAac,
    stderrLines := some ["Channel: 1 RMS level dB: -20", "Channel: 2 RMS level dB: -20"],
    detectRaised := false, execSuccess := true, outSize := 1024,
    compressOk := true }

/-- A configuration that mirrors the input tree below an output root. -/
def cfgTree : Config :=
  { input_dir := ["in"], output_dir := ["out"], same_folder := false,
    keep_structure := true, skip_existing := true }

/-- An input video file `a.mp4` at the scan root. -/
def videoA : FsPath := ⟨[], "a", ".mp4"⟩

/-! ## Claims -/

/-- C1: the audio-type classifier is a pure function of the two loudness
values returning exactly one of the six labels, decided in the claim's
order: sentinel pair → `unknown`; both below −80 → `no_audio`; left
silent, right live → `pseudo_stereo_right`; right silent, left live →
`pseudo_stereo_left`; both live → `true_stereo`; otherwise `mono`. -/
theorem C1_audio_type_classifier (l r : ℚ) :
    determineAudioType l r = claimClassify l r ∧
    determineAudioType l r ∈
      ["unknown", "no_audio", "pseudo_stereo_right", "pseudo_stereo_left",
        "true_stereo", "mono"] := by
  refine ⟨rfl, ?_⟩
  unfold determineAudioType
  split_ifs <;> simp

/-- C2: evaluation of the decision engine at a PCM stream (codec
`pcm_s16le`, true stereo, 2 channels).  `can_copy_directly` is false as
the claim says, but the target format stays `pcm_s16le` instead of the
claimed `aac`: the fallback extension `.aac` is itself in
`AUDIO_EXTENSIONS`, so `format_supported` is true for every codec other
than `ac3` and the `aac` fallback of the claim (and of the code's own
`PCM需要转码` reason) is never reached. -/
theorem C2_pcm_decision_eval :
    (makeProcessingDecision ⟨"pcm_s16le", 2, 48000, 120, 0⟩
        ⟨-20, -20, "true_stereo", "中间"⟩).can_copy_directly = false ∧
    (makeProcessingDecision ⟨"pcm_s16le", 2, 48000, 120, 0⟩
        ⟨-20, -20, "true_stereo", "中间"⟩).target_format = "pcm_s16le" ∧
    (makeProcessingDecision ⟨"pcm_s16le", 2, 48000, 120, 0⟩
        ⟨-20, -20, "true_stereo", "中间"⟩).processing_reason = "PCM需要转码" ∧
    (makeProcessingDecision ⟨"flac", 2, 48000, 120, 0⟩
        ⟨-20, -20, "true_stereo", "中间"⟩).target_format = "flac" := by
  refine ⟨?_, ?_, ?_, ?_⟩ <;> decide

lemma detectionPlan_eq (d : ℚ) :
    detectionPlan d =
      (if 60 ≤ d then (60 : ℚ) else min 10 (max 5 d),
       if d > (if 60 ≤ d then (60 : ℚ) else min 10 (max 5 d)) * (3 / 2) then
         (max 0 ((d - (if 60 ≤ d then (60 : ℚ) else min 10 (max 5 d))) / 2), "中间")
       else (0, "开头")) := by
  unfold detectionPlan
  dsimp only
  split <;> rename_i hc <;> simp [hc] <;> split <;> rfl

lemma detectionPlan_fst (d : ℚ) :
    (detectionPlan d).1 = if 60 ≤ d then 60 else min 10 (max 5 d) := by
  rw [detectionPlan_eq]

lemma detectionPlan_snd (d : ℚ) :
    (detectionPlan d).2 =
      if d > (detectionPlan d).1 * (3 / 2) then
        (max 0 ((d - (detectionPlan d).1) / 2), "中间")
      else ((0 : ℚ), "开头") := by
  rw [detectionPlan_eq]

lemma detectionPlan_w_ge5 (d : ℚ) : 5 ≤ (detectionPlan d).1 := by
  rw [detectionPlan_fst]
  split
  · norm_num
  · exact le_min (by norm_num) (le_max_left 5 d)

/-- C3 counterexample: at duration 3 s the window is
`min(10, max(5, 3)) = 5` seconds — strictly more than the clip's own
length, refuting the claim's "never exceeding the clip's own length". -/
theorem C3_short_clip_counterexample :
    (detectionPlan 3).1 = 5 ∧ ¬(detectionPlan 3).1 ≤ 3 := by
  have h : (detectionPlan 3).1 = 5 := by
    rw [detectionPlan_fst, if_neg (by norm_num : ¬(60 : ℚ) ≤ 3),
      max_eq_left (by norm_num : (3 : ℚ) ≤ 5),
      min_eq_right (by norm_num : (5 : ℚ) ≤ 10)]
  exact ⟨h, by rw [h]; norm_num⟩

/-- C3 (amended): for a non-negative duration the window is 60 s when the
duration is at least 60 s and `min(10, max(5, d))` otherwise; it never
exceeds the clip's length once the clip is at least 5 s long (for shorter
clips it does exceed it); the window starts at `(d − w)/2` with the middle
label exactly when `d` exceeds 1.5 times the window, and otherwise starts
at 0 with the start label. -/
theorem C3_detection_window (d : ℚ) (h : 0 ≤ d) :
    ((60 ≤ d → (detectionPlan d).1 = 60) ∧
     (d < 60 → (detectionPlan d).1 = min 10 (max 5 d)) ∧
     (5 ≤ d → (detectionPlan d).1 ≤ d)) ∧
    (d > (detectionPlan d).1 * (3 / 2) →
      (detectionPlan d).2.1 = (d - (detectionPlan d).1) / 2 ∧
      (detectionPlan d).2.2 = "中间") ∧
    (¬d > (detectionPlan d).1 * (3 / 2) →
      (detectionPlan d).2.1 = 0 ∧ (detectionPlan d).2.2 = "开头") := by
  have h5 := detectionPlan_w_ge5 d
  refine ⟨⟨?_, ?_, ?_⟩, ?_, ?_⟩
  · intro h60
    rw [detectionPlan_fst, if_pos h60]
  · intro h60
    rw [detectionPlan_fst, if_neg (not_le.mpr h60)]
  · intro h5d
    rw [detectionPlan_fst]
    split
    · assumption
    · calc min 10 (max 5 d) ≤ max 5 d := min_le_right _ _
        _ = d := max_eq_right h5d
  · intro hpos
    have hwd : (detectionPlan d).1 ≤ d := by nlinarith [hpos, h5]
    have hstart : (0 : ℚ) ≤ (d - (detectionPlan d).1) / 2 := by linarith
    rw [detectionPlan_snd, if_pos hpos]
    exact ⟨max_eq_right hstart, rfl⟩
  · intro hneg
    rw [detectionPlan_snd, if_neg hneg]
    exact ⟨rfl, rfl⟩

/-- C3 witness: the amended statement instantiated at a 90-second clip. -/
theorem C3_detection_window_witness :
    (0 : ℚ) ≤ 90 ∧
    (((60 ≤ (90 : ℚ) → (detectionPlan 90).1 = 60) ∧
      ((90 : ℚ) < 60 → (detectionPlan 90).1 = min 10 (max 5 90)) ∧
      (5 ≤ (90 : ℚ) → (detectionPlan 90).1 ≤ 90)) ∧
     ((90 : ℚ) > (detectionPlan 90).1 * (3 / 2) →
       (detectionPlan 90).2.1 = (90 - (detectionPlan 90).1) / 2 ∧
       (detectionPlan 90).2.2 = "中间") ∧
     (¬(90 : ℚ) > (detectionPlan 90).1 * (3 / 2) →
       (detectionPlan 90).2.1 = 0 ∧ (detectionPlan 90).2.2 = "开头")) :=
  ⟨by norm_num, C3_detection_window 90 (by norm_num)⟩

/-- C6: for an existing output, the MP3 re-encode is attempted exactly
when the size strictly exceeds the threshold (500 MiB by default); on
success the original is deleted and the `.mp3` sibling is returned; on
failure (and below the threshold) the original is kept and returned. -/
theorem C6_size_threshold_compression (out : FsPath) (fs : Finset FsPath) (size : ℕ)
    (compressOk : Bool) (hmem : out ∈ fs) :
    maxFileSize = 500 * 1024 * 1024 ∧
    ((checkAndCompress out fs size compressOk).attempted ↔ maxFileSize < size) ∧
    (maxFileSize < size → compressOk = true →
      (checkAndCompress out fs size compressOk).finalPath = mp3Sibling out ∧
      out ∉ (checkAndCompress out fs size compressOk).fs) ∧
    (maxFileSize < size → compressOk = false →
      (checkAndCompress out fs size compressOk).finalPath = out ∧
      (checkAndCompress out fs size compressOk).fs = fs) ∧
    (¬maxFileSize < size →
      (checkAndCompress out fs size compressOk).finalPath = out ∧
      (checkAndCompress out fs size compressOk).fs = fs ∧
      (checkAndCompress out fs size compressOk).attempted = false) := by
  unfold checkAndCompress
  rw [if_neg (not_not_intro hmem)]
  refine ⟨by norm_num [maxFileSize, MAX_FILE_SIZE_MB], ?_⟩
  by_cases hs : maxFileSize < size
  · cases compressOk
    · simp [hs]
    · simp [hs, Finset.not_mem_erase]
  · simp [hs]

/-- C6 witness: a 600 MiB output beside one existing file, successful
re-encode. -/
theorem C6_size_threshold_compression_witness :
    maxFileSize = 500 * 1024 * 1024 ∧
    ((checkAndCompress ⟨[], "a", ".aac"⟩ {⟨[], "a", ".aac"⟩} (600 * 1024 * 1024)
        true).attempted ↔ maxFileSize < 600 * 1024 * 1024) ∧
    (maxFileSize < 600 * 1024 * 1024 → true = true →
      (checkAndCompress ⟨[], "a", ".aac"⟩ {⟨[], "a", ".aac"⟩} (600 * 1024 * 1024)
          true).finalPath = mp3Sibling ⟨[], "a", ".aac"⟩ ∧
      (⟨[], "a", ".aac"⟩ : FsPath) ∉
        (checkAndCompress ⟨[], "a", ".aac"⟩ {⟨[], "a", ".aac"⟩} (600 * 1024 * 1024)
          true).fs) ∧
    (maxFileSize < 600 * 1024 * 1024 → true = false →
      (checkAndCompress ⟨[], "a", ".aac"⟩ {⟨[], "a", ".aac"⟩} (600 * 1024 * 1024)
          true).finalPath = ⟨[], "a", ".aac"⟩ ∧
      (checkAndCompress ⟨[], "a", ".aac"⟩ {⟨[], "a", ".aac"⟩} (600 * 1024 * 1024)
          true).fs = {⟨[], "a", ".aac"⟩}) ∧
    (¬maxFileSize < 600 * 1024 * 1024 →
      (checkAndCompress ⟨[], "a", ".aac"⟩ {⟨[], "a", ".aac"⟩} (600 * 1024 * 1024)
          true).finalPath = ⟨[], "a", ".aac"⟩ ∧
      (checkAndCompress ⟨[], "a", ".aac"⟩ {⟨[], "a", ".aac"⟩} (600 * 1024 * 1024)
          true).fs = {⟨[], "a", ".aac"⟩} ∧
      (checkAndCompress ⟨[], "a", ".aac"⟩ {⟨[], "a", ".aac"⟩} (600 * 1024 * 1024)
          true).attempted = false) :=
  C6_size_threshold_compression ⟨[], "a", ".aac"⟩ {⟨[], "a", ".aac"⟩}
    (600 * 1024 * 1024) true (Finset.mem_singleton_self _)

/-- C9: with `k` files completed out of `N` and the current file (not yet
counted as completed) at `p` percent, the recomputed batch value is
exactly `(k + p/100)/N · 100`, and the progress bar receives its integer
truncation. -/
theorem C9_batch_percentage (total processed : ℕ) (p : ℤ)
    (h1 : processed < total) (h2 : 0 ≤ p) (h3 : p ≤ 100) :
    overallProgressValue total processed p =
      some ((((processed : ℚ) + (p : ℚ) / 100) / (total : ℚ)) * 100) ∧
    displayedOverallProgress total processed p =
      some (pytrunc ((((processed : ℚ) + (p : ℚ) / 100) / (total : ℚ)) * 100)) := by
  have htn : total ≠ 0 := Nat.not_eq_zero_of_lt h1
  have htq : (0 : ℚ) < (total : ℚ) := by
    exact_mod_cast Nat.pos_of_ne_zero htn
  have hple : ((p : ℚ)) ≤ 100 := by exact_mod_cast h3
  have hpge : (0 : ℚ) ≤ (p : ℚ) := by exact_mod_cast h2
  have hkn : (processed : ℚ) + 1 ≤ (total : ℚ) := by exact_mod_cast h1
  have hval : ((processed : ℚ) / (total : ℚ)) * 100 +
      ((p : ℚ) / 100) * (1 / (total : ℚ)) * 100 =
      (((processed : ℚ) + (p : ℚ) / 100) / (total : ℚ)) * 100 := by
    field_simp
    ring
  have hub : (((processed : ℚ) + (p : ℚ) / 100) / (total : ℚ)) * 100 ≤ 100 := by
    rw [div_mul_eq_mul_div, div_le_iff₀ htq]
    nlinarith
  have hlb : 0 ≤ (((processed : ℚ) + (p : ℚ) / 100) / (total : ℚ)) * 100 := by positivity
  have hmain : overallProgressValue total processed p =
      some ((((processed : ℚ) + (p : ℚ) / 100) / (total : ℚ)) * 100) := by
    unfold overallProgressValue
    rw [if_neg htn]
    dsimp only
    rw [hval, max_eq_right hlb, min_eq_right hub]
  refine ⟨hmain, ?_⟩
  unfold displayedOverallProgress
  rw [hmain]
  rfl

/-- C9 witness: one of four files completed, current file at 50 percent:
the batch value is `(1 + 0.5)/4 · 100`. -/
theorem C9_batch_percentage_witness :
    (overallProgressValue 4 1 50 =
      some ((((1 : ℕ) : ℚ) + ((50 : ℤ) : ℚ) / 100) / ((4 : ℕ) : ℚ) * 100) ∧
     displayedOverallProgress 4 1 50 =
      some (pytrunc ((((1 : ℕ) : ℚ) + ((50 : ℤ) : ℚ) / 100) / ((4 : ℕ) : ℚ) * 100))) :=
  C9_batch_percentage 4 1 50 (by norm_num) (by norm_num) (by norm_num)

/-- C10: the computed output path keeps the input's stem; its extension is
`.<target>` exactly for the six whitelisted targets and `.aac` otherwise
(even though the standard-transcode invocation encodes with the decided
target codec); the file sits beside the input when `same_folder` is set,
otherwise under the output root, mirroring the input-relative
subdirectory exactly when `keep_structure` is set. -/
theorem C10_output_path (cfg : Config) (video : FsPath) (target : String) (out : FsPath)
    (h : getOutputPath cfg video target = some out) :
    out.stem = video.stem ∧
    (["aac", "mp3", "ac3", "flac", "ogg", "wav"].contains target = true →
      out.ext = "." ++ target) ∧
    (["aac", "mp3", "ac3", "flac", "ogg", "wav"].contains target = false →
      out.ext = ".aac") ∧
    (cfg.same_folder = true → out.dir = video.dir) ∧
    (cfg.same_folder = false → cfg.keep_structure = true →
      cfg.input_dir.isPrefixOf video.dir = true ∧
      out.dir = cfg.output_dir ++ video.dir.drop cfg.input_dir.length) ∧
    (cfg.same_folder = false → cfg.keep_structure = false → out.dir = cfg.output_dir) ∧
    (∀ d : ProcessingDecision, d.can_copy_directly = false → d.needs_channel_fix = false →
      executionCodecArg d = d.target_format) := by
  have hcodec : ∀ d : ProcessingDecision, d.can_copy_directly = false →
      d.needs_channel_fix = false → executionCodecArg d = d.target_format := by
    intro d hd1 hd2
    simp [executionCodecArg, hd1, hd2]
  revert h
  unfold getOutputPath
  split_ifs with hext hsame hkeep hpre hsame2 hkeep2 hpre2 <;> intro h <;>
    simp only [Option.some.injEq, reduceCtorEq] at h
  all_goals
    subst h
    refine ⟨rfl, ?_, ?_, ?_, ?_, ?_, hcodec⟩ <;> simp_all [Bool.not_eq_true]

/-- C10 witness: `in/sub/movie.mp4` with decided target `pcm_s16le` under
the tree-mirroring configuration lands at `out/sub/movie.aac`. -/
theorem C10_output_path_witness :
    (⟨["out", "sub"], "movie", ".aac"⟩ : FsPath).stem =
      (⟨["in", "sub"], "movie", ".mp4"⟩ : FsPath).stem ∧
    (["aac", "mp3", "ac3", "flac", "ogg", "wav"].contains "pcm_s16le" = true →
      (⟨["out", "sub"], "movie", ".aac"⟩ : FsPath).ext = "." ++ "pcm_s16le") ∧
    (["aac", "mp3", "ac3", "flac", "ogg", "wav"].contains "pcm_s16le" = false →
      (⟨["out", "sub"], "movie", ".aac"⟩ : FsPath).ext = ".aac") ∧
    (cfgTree.same_folder = true →
      (⟨["out", "sub"], "movie", ".aac"⟩ : FsPath).dir =
        (⟨["in", "sub"], "movie", ".mp4"⟩ : FsPath).dir) ∧
    (cfgTree.same_folder = false → cfgTree.keep_structure = true →
      cfgTree.input_dir.isPrefixOf (⟨["in", "sub"], "movie", ".mp4"⟩ : FsPath).dir = true ∧
      (⟨["out", "sub"], "movie", ".aac"⟩ : FsPath).dir =
        cfgTree.output_dir ++
          (⟨["in", "sub"], "movie", ".mp4"⟩ : FsPath).dir.drop cfgTree.input_dir.length) ∧
    (cfgTree.same_folder = false → cfgTree.keep_structure = false →
      (⟨["out", "sub"], "movie", ".aac"⟩ : FsPath).dir = cfgTree.output_dir) ∧
    (∀ d : ProcessingDecision, d.can_copy_directly = false → d.needs_channel_fix = false →
      executionCodecArg d = d.target_format) :=
  C10_output_path cfgTree ⟨["in", "sub"], "movie", ".mp4"⟩ "pcm_s16le"
    ⟨["out", "sub"], "movie", ".aac"⟩ (by decide)

lemma runBatch_counts (pf : String → Option ℚ) (cfg : Config)
    (files : List (FsPath × FileEnv)) : ∀ st : BatchState,
    (runBatch pf cfg files st).results.length = st.results.length + files.length ∧
    (runBatch pf cfg files st).processed = st.processed + files.length := by
  induction files with
  | nil => intro st; simp [runBatch]
  | cons x xs ih =>
    intro st
    have h := ih (workerStep pf cfg st x)
    unfold runBatch at h ⊢
    rw [List.foldl_cons]
    refine ⟨?_, ?_⟩
    · rw [h.1]; simp [workerStep]; omega
    · rw [h.2]; simp [workerStep]; omega

/-- C4: for every file exactly one `ProcessResult` comes back and no
exception reaches the dispatcher — a probe failure yields a failed result
with the explanatory message, an exception escaping the pipeline body is
converted by the outer handler into a failed result, and a batch of `n`
scanned files emits exactly `n` results and `n` counter increments. -/
theorem C4_one_result_per_file (pf : String → Option ℚ) (cfg : Config) (video : FsPath)
    (env : FileEnv) (fs : Finset FsPath) (files : List (FsPath × FileEnv))
    (st : BatchState) :
    (env.streamInfo = none →
      extractAudio pf cfg video env fs = ⟨probeFailResult video, fs, false⟩ ∧
      (probeFailResult video).success = false ∧
      (probeFailResult video).error_msg = "无法获取音频流信息") ∧
    (∀ e, extractAudioCore pf cfg video env fs = .error e →
      extractAudio pf cfg video env fs = ⟨exceptionResult video e, fs, false⟩ ∧
      (exceptionResult video e).success = false ∧
      (exceptionResult video e).error_msg = "音频提取异常: " ++ e) ∧
    ((runBatch pf cfg files st).results.length = st.results.length + files.length ∧
     (runBatch pf cfg files st).processed = st.processed + files.length) := by
  refine ⟨?_, ?_, runBatch_counts pf cfg files st⟩
  · intro h
    have hcore : extractAudioCore pf cfg video env fs = .ok ⟨probeFailResult video, fs, false⟩ := by
      unfold extractAudioCore
      rw [h]
    exact ⟨by unfold extractAudio; rw [hcore], rfl, rfl⟩
  · intro e he
    exact ⟨by unfold extractAudio; rw [he], rfl, rfl⟩

lemma rmsUpdate_left_preserved (pf : String → Option ℚ) (ch : Option AstatsChannel)
    (line : String) (st : AstatsState) (hch : ch ≠ some .left) :
    (rmsUpdate pf ch line st).left_rms = st.left_rms ∧
    (rmsUpdate pf ch line st).current_channel = st.current_channel := by
  unfold rmsUpdate
  cases ch with
  | none => simp
  | some cc =>
    cases cc with
    | left => exact absurd rfl hch
    | overall =>
      split_ifs with h
      · cases hsp : pySplitGet1 "RMS level dB:" line with
        | none => exact ⟨rfl, rfl⟩
        | some s =>
          dsimp only
          cases hpf : pf (pyStrip s) with
          | none => exact ⟨rfl, rfl⟩
          | some v => exact ⟨rfl, rfl⟩
      · exact ⟨rfl, rfl⟩
    | right =>
      split_ifs with h
      · cases hsp : pySplitGet1 "RMS level dB:" line with
        | none => exact ⟨rfl, rfl⟩
        | some s =>
          dsimp only
          cases hpf : pf (pyStrip s) with
          | none => exact ⟨rfl, rfl⟩
          | some v => exact ⟨rfl, rfl⟩
      · exact ⟨rfl, rfl⟩

lemma rmsUpdate_right_preserved (pf : String → Option ℚ) (ch : Option AstatsChannel)
    (line : String) (st : AstatsState) (hch : ch ≠ some .right) :
    (rmsUpdate pf ch line st).right_rms = st.right_rms ∧
    (rmsUpdate pf ch line st).current_channel = st.current_channel := by
  unfold rmsUpdate
  cases ch with
  | none => simp
  | some cc =>
    cases cc with
    | right => exact absurd rfl hch
    | overall =>
      split_ifs with h
      · cases hsp : pySplitGet1 "RMS level dB:" line with
        | none => exact ⟨rfl, rfl⟩
        | some s =>
          dsimp only
          cases hpf : pf (pyStrip s) with
          | none => exact ⟨rfl, rfl⟩
          | some v => exact ⟨rfl, rfl⟩
      · exact ⟨rfl, rfl⟩
    | left =>
      split_ifs with h
      · cases hsp : pySplitGet1 "RMS level dB:" line with
        | none => exact ⟨rfl, rfl⟩
        | some s =>
          dsimp only
          cases hpf : pf (pyStrip s) with
          | none => exact ⟨rfl, rfl⟩
          | some v => exact ⟨rfl, rfl⟩
      · exact ⟨rfl, rfl⟩

lemma rmsUpdate_channel (pf : String → Option ℚ) (ch : Option AstatsChannel)
    (line : String) (st : AstatsState) :
    (rmsUpdate pf ch line st).current_channel = st.current_channel := by
  unfold rmsUpdate
  cases ch with
  | none => simp
  | some cc =>
    cases cc <;>
      (split_ifs with h
       · cases hsp : pySplitGet1 "RMS level dB:" line with
         | none => rfl
         | some s =>
           dsimp only
           cases hpf : pf (pyStrip s) with
           | none => rfl
           | some v => rfl
       · rfl)

lemma parseRmsLine_channel (pf : String → Option ℚ) (st : AstatsState) (l : String) :
    (parseRmsLine pf st l).current_channel =
      updateChannel (pyStrip l) st.current_channel :=
  rmsUpdate_channel pf (updateChannel (pyStrip l) st.current_channel) (pyStrip l)
    { st with current_channel := updateChannel (pyStrip l) st.current_channel }

lemma rmsUpdate_left_unassigned (pf : String → Option ℚ) (ch : Option AstatsChannel)
    (line : String) (st : AstatsState)
    (h : (pyIn "RMS level dB:" line && (ch == some AstatsChannel.left)) = false) :
    (rmsUpdate pf ch line st).left_rms = st.left_rms := by
  cases hin : pyIn "RMS level dB:" line with
  | false =>
    unfold rmsUpdate
    simp [hin]
  | true =>
    have hch : ch ≠ some AstatsChannel.left := by
      intro hc
      subst hc
      rw [hin] at h
      simp at h
    exact (rmsUpdate_left_preserved pf ch line st hch).1

lemma rmsUpdate_right_unassigned (pf : String → Option ℚ) (ch : Option AstatsChannel)
    (line : String) (st : AstatsState)
    (h : (pyIn "RMS level dB:" line && (ch == some AstatsChannel.right)) = false) :
    (rmsUpdate pf ch line st).right_rms = st.right_rms := by
  cases hin : pyIn "RMS level dB:" line with
  | false =>
    unfold rmsUpdate
    simp [hin]
  | true =>
    have hch : ch ≠ some AstatsChannel.right := by
      intro hc
      subst hc
      rw [hin] at h
      simp at h
    exact (rmsUpdate_right_preserved pf ch line st hch).1

lemma astats_no_left_rms (pf : String → Option ℚ) (lines : List String) :
    ∀ st : AstatsState, noLeftRmsLine lines st.current_channel = true →
      (lines.foldl (parseRmsLine pf) st).left_rms = st.left_rms := by
  induction lines with
  | nil => intro st _; rfl
  | cons l ls ih =>
    intro st h
    unfold noLeftRmsLine at h
    rw [Bool.and_eq_true] at h
    obtain ⟨h1, h2⟩ := h
    have h1' : (pyIn "RMS level dB:" (pyStrip l) &&
        (updateChannel (pyStrip l) st.current_channel == some AstatsChannel.left)) =
        false := by
      cases hb : (pyIn "RMS level dB:" (pyStrip l) &&
          (updateChannel (pyStrip l) st.current_channel == some AstatsChannel.left)) with
      | false => rfl
      | true => rw [hb] at h1; exact absurd h1 (by decide)
    rw [List.foldl_cons]
    have h2' : noLeftRmsLine ls (parseRmsLine pf st l).current_channel = true := by
      rw [parseRmsLine_channel pf st l]
      exact h2
    rw [ih (parseRmsLine pf st l) h2']
    exact rmsUpdate_left_unassigned pf _ _ _ h1'

lemma astats_no_right_rms (pf : String → Option ℚ) (lines : List String) :
    ∀ st : AstatsState, noRightRmsLine lines st.current_channel = true →
      (lines.foldl (parseRmsLine pf) st).right_rms = st.right_rms := by
  induction lines with
  | nil => intro st _; rfl
  | cons l ls ih =>
    intro st h
    unfold noRightRmsLine at h
    rw [Bool.and_eq_true] at h
    obtain ⟨h1, h2⟩ := h
    have h1' : (pyIn "RMS level dB:" (pyStrip l) &&
        (updateChannel (pyStrip l) st.current_channel == some AstatsChannel.right)) =
        false := by
      cases hb : (pyIn "RMS level dB:" (pyStrip l) &&
          (updateChannel (pyStrip l) st.current_channel == some AstatsChannel.right)) with
      | false => rfl
      | true => rw [hb] at h1; exact absurd h1 (by decide)
    rw [List.foldl_cons]
    have h2' : noRightRmsLine ls (parseRmsLine pf st l).current_channel = true := by
      rw [parseRmsLine_channel pf st l]
      exact h2
    rw [ih (parseRmsLine pf st l) h2']
    exact rmsUpdate_right_unassigned pf _ _ _ h1'

/-- C5: loudness measurement never raises — the subprocess failure path
returns the sentinel pair; a report that lacks an RMS line for one
channel (no line carrying `RMS level dB:` inside that channel's section)
leaves that channel's value individually at −60, each channel on its
own; and a sentinel pair is classified `unknown` downstream (also
through `detect_pseudo_stereo` itself). -/
theorem C5_loudness_measurement_degrades (pf : String → Option ℚ) :
    detectPositionVolumes pf none = (-60, -60) ∧
    (∀ lines : List String, noLeftRmsLine lines none = true →
      (detectPositionVolumes pf (some lines)).1 = -60) ∧
    (∀ lines : List String, noRightRmsLine lines none = true →
      (detectPositionVolumes pf (some lines)).2 = -60) ∧
    determineAudioType (-60) (-60) = "unknown" ∧
    (∀ si : AudioStreamInfo, ∀ raised : Bool,
      (detectPseudoStereo pf si none raised).audio_type = "unknown") := by
  refine ⟨rfl, ?_, ?_, rfl, ?_⟩
  · intro lines h
    exact astats_no_left_rms pf lines ⟨none, -60, -60⟩ h
  · intro lines h
    exact astats_no_right_rms pf lines ⟨none, -60, -60⟩ h
  · intro si raised
    cases raised <;> rfl

/-- C5 witness: the asymmetric, mono-style report whose only section is
the left channel — the parser measures the left value (−20) while the
right channel, lacking any RMS line of its own, individually stays at
the −60 sentinel; plus the subprocess-failure path. -/
theorem C5_loudness_measurement_degrades_witness :
    (detectPositionVolumes (fun _ => some (-20))
        (some ["Channel: 1", "RMS level dB: -20"])).1 = -20 ∧
    noRightRmsLine ["Channel: 1", "RMS level dB: -20"] none = true ∧
    (detectPositionVolumes (fun _ => some (-20))
        (some ["Channel: 1", "RMS level dB: -20"])).2 = -60 ∧
    detectPositionVolumes (fun _ => some (-20)) none = (-60, -60) ∧
    determineAudioType (-60) (-60) = "unknown" :=
  ⟨by decide, by decide,
   (C5_loudness_measurement_degrades (fun _ => some (-20))).2.2.1
     ["Channel: 1", "RMS level dB: -20"] (by decide),
   (C5_loudness_measurement_degrades (fun _ => some (-20))).1,
   (C5_loudness_measurement_degrades (fun _ => some (-20))).2.2.2.1⟩

lemma end_line_not_out_time (l : String) (h : pyStartsWith "progress=end" l = true) :
    pyStartsWith "out_time_ms=" l = false := by
  unfold pyStartsWith at h ⊢
  cases hl : l.data with
  | nil =>
    rw [hl] at h
    exact absurd h (by decide)
  | cons c cs =>
    rw [hl] at h
    rw [show ("progress=end").data = 'p' :: ("rogress=end").data from by decide] at h
    rw [show ("out_time_ms=").data = 'o' :: ("ut_time_ms=").data from by decide]
    simp only [List.isPrefixOf, Bool.and_eq_true, beq_iff_eq] at h
    obtain ⟨hp, _⟩ := h
    subst hp
    simp [List.isPrefixOf]

lemma progressStep_inactive (duration : ℚ) (st : ProgressState) (l : String) :
    (progressLineStep duration st (false, l)).emitted = st.emitted := by
  unfold progressLineStep
  by_cases hout : pyStartsWith "out_time_ms=" l = true
  · rw [if_pos hout]
    cases hsp : pySplitGet1 "=" l with
    | none => rfl
    | some vs =>
      dsimp only
      cases hpi : parsePyInt vs with
      | none => rfl
      | some ms =>
        dsimp only
        split_ifs <;> simp_all
  · rw [if_neg hout]
    split_ifs <;> simp_all

lemma progressStep_end (duration : ℚ) (st : ProgressState) (l : String) (b : Bool)
    (hend : pyStartsWith "progress=end" l = true) :
    progressLineStep duration st (b, l) =
      if b then { st with emitted := st.emitted ++ [100] } else st := by
  unfold progressLineStep
  rw [if_neg (by simp [end_line_not_out_time l hend]), if_pos hend]

lemma progressStep_not_end_inv (duration : ℚ) (st : ProgressState) (item : Bool × String)
    (hne : pyStartsWith "progress=end" item.2 = false) (h : progressInv st) :
    progressInv (progressLineStep duration st item) := by
  obtain ⟨hb, hc, hlast, hge, hle⟩ := h
  unfold progressLineStep
  by_cases hout : pyStartsWith "out_time_ms=" item.2 = true
  · rw [if_pos hout]
    cases hsp : pySplitGet1 "=" item.2 with
    | none => exact ⟨hb, hc, hlast, hge, hle⟩
    | some vs =>
      dsimp only
      cases hpi : parsePyInt vs with
      | none => exact ⟨hb, hc, hlast, hge, hle⟩
      | some ms =>
        dsimp only
        split_ifs with hdur hlt hact
        · -- active emission of a progress value strictly above last_progress
          have hprog_le : min 100 (pytrunc ((ms : ℚ) / 1000000 / duration * 100)) ≤ 100 :=
            min_le_left _ _
          have hpos : 0 < min 100 (pytrunc ((ms : ℚ) / 1000000 / duration * 100)) :=
            lt_of_le_of_lt hge hlt
          refine ⟨?_, ?_, ?_, le_trans hge (le_of_lt hlt), hprog_le⟩
          · intro v hv
            rcases List.mem_append.mp hv with h1 | h1
            · exact hb v h1
            · simp only [List.mem_singleton] at h1
              subst h1
              exact ⟨hpos, hprog_le⟩
          · refine List.chain'_append.mpr ⟨hc, List.chain'_singleton _, ?_⟩
            intro x hx y hy
            simp only [List.head?_cons, Option.mem_def, Option.some.injEq] at hy
            subst hy
            exact Or.inl (lt_of_le_of_lt (hlast x (Option.mem_def.mp hx)) hlt)
          · intro v hv
            rw [List.getLast?_concat] at hv
            injection hv with hv
            subst hv
            exact le_refl _
        · -- inactive: last_progress is updated but nothing is emitted
          have hprog_le : min 100 (pytrunc ((ms : ℚ) / 1000000 / duration * 100)) ≤ 100 :=
            min_le_left _ _
          refine ⟨hb, hc, ?_, le_trans hge (le_of_lt hlt), hprog_le⟩
          intro v hv
          exact le_trans (hlast v hv) (le_of_lt hlt)
        · exact ⟨hb, hc, hlast, hge, hle⟩
        · exact ⟨hb, hc, hlast, hge, hle⟩
  · rw [if_neg hout, if_neg (by simp [hne])]
    exact ⟨hb, hc, hlast, hge, hle⟩

lemma progressRun_body_inv (duration : ℚ) (body : List (Bool × String)) :
    (∀ item ∈ body, pyStartsWith "progress=end" item.2 = false) →
    ∀ st, progressInv st → progressInv (body.foldl (progressLineStep duration) st) := by
  induction body with
  | nil => intro _ st h; exact h
  | cons x xs ih =>
    intro hbody st h
    rw [List.foldl_cons]
    exact ih (fun i hi => hbody i (List.mem_cons_of_mem x hi)) _
      (progressStep_not_end_inv duration st x (hbody x (List.mem_cons_self x xs)) h)

lemma progressInv_init : progressInv ⟨0, []⟩ := by
  refine ⟨?_, List.chain'_nil, ?_, le_refl 0, by norm_num⟩
  · intro v hv; simp at hv
  · intro v hv; simp at hv

/-- C8 counterexample: with a 10-second stream, the line pair
`out_time_ms=10000000` (i.e. 100%) followed by `progress=end` emits
`[100, 100]` — the `progress=end` branch emits 100 without consulting
`last_progress`, so the emitted sequence is not strictly increasing. -/
theorem C8_progress_counterexample :
    (runFfmpegProgress 10
        [(true, "out_time_ms=10000000"), (true, "progress=end")]).emitted = [100, 100] ∧
    ¬List.Chain' (fun a b : ℤ => a < b)
      (runFfmpegProgress 10
        [(true, "out_time_ms=10000000"), (true, "progress=end")]).emitted := by
  have harith : min 100 (pytrunc (((10000000 : ℤ) : ℚ) / 1000000 / 10 * 100)) = 100 := by
    have : (((10000000 : ℤ) : ℚ) / 1000000 / 10 * 100) = 100 := by norm_num
    rw [this]
    norm_num [pytrunc]
  have h1 : progressLineStep 10 ⟨0, []⟩ (true, "out_time_ms=10000000") = ⟨100, [100]⟩ := by
    unfold progressLineStep
    rw [if_pos (by decide : pyStartsWith "out_time_ms=" "out_time_ms=10000000" = true)]
    rw [show pySplitGet1 "=" "out_time_ms=10000000" = some "10000000" from by decide]
    dsimp only
    rw [show parsePyInt "10000000" = some 10000000 from by decide]
    dsimp only
    rw [if_pos (by norm_num : (0 : ℚ) < 10), harith,
      if_pos (by norm_num : (0 : ℤ) < 100)]
    rfl
  have h2 : progressLineStep 10 ⟨100, [100]⟩ (true, "progress=end") = ⟨100, [100, 100]⟩ := by
    rw [progressStep_end 10 ⟨100, [100]⟩ "progress=end" true (by decide)]
    rfl
  have hrun : runFfmpegProgress 10
      [(true, "out_time_ms=10000000"), (true, "progress=end")] = ⟨100, [100, 100]⟩ := by
    unfold runFfmpegProgress
    rw [List.foldl_cons, h1, List.foldl_cons, h2, List.foldl_nil]
  rw [hrun]
  exact ⟨rfl, by simp [List.chain'_cons]⟩

/-- C8 (amended): nothing is emitted while the monitored file is not the
announced active file; an active `progress=end` line always emits 100;
and — when the end marker can only be the final line, as in the tool's
progress stream — every emission lies in (0, 100] and the emitted
sequence is strictly increasing except that the final forced 100 may
repeat an already-emitted 100. -/
theorem C8_progress_monitoring (duration : ℚ) (lines : List (Bool × String))
    (hend : ∀ item ∈ lines.dropLast, pyStartsWith "progress=end" item.2 = false) :
    (∀ st : ProgressState, ∀ l : String,
      (progressLineStep duration st (false, l)).emitted = st.emitted) ∧
    (∀ st : ProgressState, ∀ l : String, pyStartsWith "progress=end" l = true →
      (progressLineStep duration st (true, l)).emitted = st.emitted ++ [100]) ∧
    (∀ v ∈ (runFfmpegProgress duration lines).emitted, 0 < v ∧ v ≤ 100) ∧
    List.Chain' (fun a b => a < b ∨ (a = 100 ∧ b = 100))
      (runFfmpegProgress duration lines).emitted := by
  refine ⟨fun st l => progressStep_inactive duration st l, ?_, ?_⟩
  · intro st l hl
    rw [progressStep_end duration st l true hl, if_pos rfl]
  · rcases List.eq_nil_or_concat lines with hnil | ⟨body, x, hcat⟩
    · subst hnil
      exact ⟨fun v hv => by simp [runFfmpegProgress] at hv, by simp [runFfmpegProgress]⟩
    · subst hcat
      have hbody : ∀ item ∈ body, pyStartsWith "progress=end" item.2 = false := by
        intro i hi
        exact hend i (by simp [List.concat_eq_append, hi])
      have hinvb : progressInv (body.foldl (progressLineStep duration) ⟨0, []⟩) :=
        progressRun_body_inv duration body hbody ⟨0, []⟩ progressInv_init
      have hfold : runFfmpegProgress duration (body.concat x) =
          progressLineStep duration (body.foldl (progressLineStep duration) ⟨0, []⟩) x := by
        unfold runFfmpegProgress
        rw [List.concat_eq_append, List.foldl_append, List.foldl_cons, List.foldl_nil]
      rw [hfold]
      set stb := body.foldl (progressLineStep duration) ⟨0, []⟩ with hstb
      obtain ⟨hb, hc, hlast, hge, hle⟩ := hinvb
      by_cases hx : pyStartsWith "progress=end" x.2 = true
      · obtain ⟨bx, lx⟩ := x
        rw [progressStep_end duration stb lx bx hx]
        by_cases hbx : bx = true
        · rw [if_pos hbx]
          refine ⟨?_, ?_⟩
          · intro v hv
            rcases List.mem_append.mp hv with h1 | h1
            · exact hb v h1
            · simp only [List.mem_singleton] at h1
              subst h1
              exact ⟨by norm_num, le_refl _⟩
          · refine List.chain'_append.mpr ⟨hc, List.chain'_singleton _, ?_⟩
            intro a ha y hy
            simp only [List.head?_cons, Option.mem_def, Option.some.injEq] at hy
            subst hy
            have ha100 : a ≤ 100 := le_trans (hlast a (Option.mem_def.mp ha)) hle
            rcases lt_or_eq_of_le ha100 with h | h
            · exact Or.inl h
            · exact Or.inr ⟨h, rfl⟩
        · rw [if_neg hbx]
          exact ⟨hb, hc⟩
      · have hinv' := progressStep_not_end_inv duration stb x
          (Bool.not_eq_true _ ▸ (by simpa using hx)) ⟨hb, hc, hlast, hge, hle⟩
        exact ⟨hinv'.1, hinv'.2.1⟩

/-- C8 witness: the amended statement at a 10-second stream whose line
sequence reports 50% and then ends. -/
theorem C8_progress_monitoring_witness :
    (∀ st : ProgressState, ∀ l : String,
      (progressLineStep 10 st (false, l)).emitted = st.emitted) ∧
    (∀ st : ProgressState, ∀ l : String, pyStartsWith "progress=end" l = true →
      (progressLineStep 10 st (true, l)).emitted = st.emitted ++ [100]) ∧
    (∀ v ∈ (runFfmpegProgress 10
        [(true, "out_time_ms=5000000"), (true, "progress=end")]).emitted,
      0 < v ∧ v ≤ 100) ∧
    List.Chain' (fun a b => a < b ∨ (a = 100 ∧ b = 100))
      (runFfmpegProgress 10
        [(true, "out_time_ms=5000000"), (true, "progress=end")]).emitted :=
  C8_progress_monitoring 10 [(true, "out_time_ms=5000000"), (true, "progress=end")]
    (by decide)

lemma extractAudio_skip (pf : String → Option ℚ) (cfg : Config) (v : FsPath)
    (env : FileEnv) (fs : Finset FsPath) (out : FsPath)
    (hout : outPathOf pf cfg (v, env) = some out)
    (hskip : cfg.skip_existing = true) (hmem : out ∈ fs) :
    (extractAudio pf cfg v env fs).result.success = true ∧
    (extractAudio pf cfg v env fs).result.processing_decision = "跳过已存在文件" ∧
    (extractAudio pf cfg v env fs).fs = fs ∧
    (extractAudio pf cfg v env fs).execRan = false := by
  cases henv : env.streamInfo with
  | none =>
    unfold outPathOf at hout
    dsimp only at hout
    rw [henv] at hout
    exact absurd hout (by simp)
  | some si =>
    unfold outPathOf decisionOf at hout
    dsimp only at hout
    rw [henv] at hout
    dsimp only at hout
    have hcore : extractAudioCore pf cfg v env fs =
        .ok ⟨skipResult v out
            (detectPseudoStereo pf si env.stderrLines env.detectRaised), fs, false⟩ := by
      unfold extractAudioCore
      rw [henv]
      dsimp only
      rw [hout]
      dsimp only
      rw [if_pos (show cfg.skip_existing = true ∧ out ∈ fs from ⟨hskip, hmem⟩)]
    unfold extractAudio
    rw [hcore]
    exact ⟨rfl, rfl, rfl, rfl⟩

lemma extractAudio_good (pf : String → Option ℚ) (cfg : Config) (v : FsPath)
    (env : FileEnv) (fs : Finset FsPath) (out : FsPath)
    (hout : outPathOf pf cfg (v, env) = some out)
    (hexec : env.execSuccess = true) (hsize : env.outSize ≤ maxFileSize) :
    (extractAudio pf cfg v env fs).result.success = true ∧
    fs ⊆ (extractAudio pf cfg v env fs).fs ∧
    out ∈ (extractAudio pf cfg v env fs).fs := by
  cases henv : env.streamInfo with
  | none =>
    unfold outPathOf at hout
    dsimp only at hout
    rw [henv] at hout
    exact absurd hout (by simp)
  | some si =>
    unfold outPathOf decisionOf at hout
    dsimp only at hout
    rw [henv] at hout
    dsimp only at hout
    by_cases hsm : cfg.skip_existing = true ∧ out ∈ fs
    · have hcore : extractAudioCore pf cfg v env fs =
          .ok ⟨skipResult v out
              (detectPseudoStereo pf si env.stderrLines env.detectRaised), fs, false⟩ := by
        unfold extractAudioCore
        rw [henv]
        dsimp only
        rw [hout]
        dsimp only
        rw [if_pos hsm]
      unfold extractAudio
      rw [hcore]
      exact ⟨rfl, le_refl _, hsm.2⟩
    · have hcc : checkAndCompress out (insert out fs) env.outSize env.compressOk =
          ⟨out, insert out fs, false⟩ := by
        unfold checkAndCompress
        rw [if_neg (not_not_intro (Finset.mem_insert_self out fs)),
          if_neg (not_lt.mpr hsize)]
      have hcore : extractAudioCore pf cfg v env fs =
          .ok ⟨successResult v out
              (detectPseudoStereo pf si env.stderrLines env.detectRaised)
              (makeProcessingDecision si
                (detectPseudoStereo pf si env.stderrLines env.detectRaised)),
            insert out fs, true⟩ := by
        unfold extractAudioCore
        rw [henv]
        dsimp only
        rw [hout]
        dsimp only
        rw [if_neg hsm, if_pos hexec, hcc]
      unfold extractAudio
      rw [hcore]
      exact ⟨rfl, Finset.subset_insert _ _, Finset.mem_insert_self _ _⟩

lemma runBatch_good (pf : String → Option ℚ) (cfg : Config)
    (files : List (FsPath × FileEnv)) :
    (∀ x ∈ files, x.2.execSuccess = true ∧ x.2.outSize ≤ maxFileSize ∧
      ∃ out, outPathOf pf cfg x = some out) →
    ∀ st : BatchState,
      st.fs ⊆ (runBatch pf cfg files st).fs ∧
      ∀ x ∈ files, ∀ out, outPathOf pf cfg x = some out →
        out ∈ (runBatch pf cfg files st).fs := by
  induction files with
  | nil =>
    intro _ st
    exact ⟨Finset.Subset.refl _, fun x hx => absurd hx (List.not_mem_nil x)⟩
  | cons x xs ih =>
    intro hgood st
    obtain ⟨hexec, hsize, outx, houtx⟩ := hgood x (List.mem_cons_self x xs)
    obtain ⟨hsucc, hsub, hmem⟩ :=
      extractAudio_good pf cfg x.1 x.2 st.fs outx houtx hexec hsize
    have hstep : runBatch pf cfg (x :: xs) st =
        runBatch pf cfg xs (workerStep pf cfg st x) := by
      unfold runBatch
      rw [List.foldl_cons]
    have ihx := ih (fun y hy => hgood y (List.mem_cons_of_mem x hy)) (workerStep pf cfg st x)
    rw [hstep]
    refine ⟨le_trans hsub ihx.1, ?_⟩
    intro y hy out hout
    rcases List.mem_cons.mp hy with rfl | hy'
    · have : out = outx := by
        rw [hout] at houtx
        exact Option.some.inj houtx
      subst this
      exact ihx.1 hmem
    · exact ihx.2 y hy' out hout

lemma runBatch_all_skip (pf : String → Option ℚ) (cfg : Config)
    (files : List (FsPath × FileEnv)) (hskip : cfg.skip_existing = true) :
    ∀ st : BatchState,
      (∀ x ∈ files, ∃ out, outPathOf pf cfg x = some out ∧ out ∈ st.fs) →
      (runBatch pf cfg files st).fs = st.fs ∧
      (runBatch pf cfg files st).transcodes = st.transcodes ∧
      ∀ r ∈ (runBatch pf cfg files st).results, r ∈ st.results ∨
        (r.success = true ∧ r.processing_decision = "跳过已存在文件") := by
  induction files with
  | nil =>
    intro st _
    exact ⟨rfl, rfl, fun r hr => Or.inl hr⟩
  | cons x xs ih =>
    intro st hpre
    obtain ⟨outx, houtx, hmemx⟩ := hpre x (List.mem_cons_self x xs)
    obtain ⟨hsucc, hdec, hfs, hran⟩ :=
      extractAudio_skip pf cfg x.1 x.2 st.fs outx houtx hskip hmemx
    have hstep : runBatch pf cfg (x :: xs) st =
        runBatch pf cfg xs (workerStep pf cfg st x) := by
      unfold runBatch
      rw [List.foldl_cons]
    have hstfs : (workerStep pf cfg st x).fs = st.fs := hfs
    have htr : (workerStep pf cfg st x).transcodes = st.transcodes := by
      unfold workerStep
      dsimp only
      rw [hran]
      simp
    have ihx := ih (workerStep pf cfg st x)
      (fun y hy => by
        obtain ⟨o, ho, hm⟩ := hpre y (List.mem_cons_of_mem x hy)
        exact ⟨o, ho, hstfs ▸ hm⟩)
    rw [hstep]
    refine ⟨ihx.1.trans hstfs, ihx.2.1.trans htr, ?_⟩
    intro r hr
    rcases ihx.2.2 r hr with h | h
    · unfold workerStep at h
      rcases List.mem_append.mp h with h1 | h1
      · exact Or.inl h1
      · simp only [List.mem_singleton] at h1
        subst h1
        exact Or.inr ⟨hsucc, hdec⟩
    · exact Or.inr h

/-- C7 (amended): with skip-existing enabled, a file whose computed output
path already exists is reported as an immediate success with the skip
reason and without invoking the execution pipeline; hence, provided every
file's probe and path computation succeed, its execution succeeds, and
its output stays within the size threshold (so the oversize MP3
compression never renames it), a second run of the same batch performs
zero re-transcodes and reports every file as a skip success.  (A file
whose first-run output was compressed to `.mp3` is re-transcoded, see the
counterexample.) -/
theorem C7_skip_existing_idempotence (pf : String → Option ℚ) (cfg : Config)
    (files : List (FsPath × FileEnv)) (fs0 : Finset FsPath)
    (hskip : cfg.skip_existing = true)
    (hgood : ∀ x ∈ files, x.2.execSuccess = true ∧ x.2.outSize ≤ maxFileSize ∧
      ∃ out, outPathOf pf cfg x = some out) :
    (∀ v env fs out, outPathOf pf cfg (v, env) = some out → out ∈ fs →
      (extractAudio pf cfg v env fs).result.success = true ∧
      (extractAudio pf cfg v env fs).result.processing_decision = "跳过已存在文件" ∧
      (extractAudio pf cfg v env fs).fs = fs ∧
      (extractAudio pf cfg v env fs).execRan = false) ∧
    ((runBatch pf cfg files
        ⟨[], (runBatch pf cfg files ⟨[], fs0, 0, 0⟩).fs, 0, 0⟩).transcodes = 0 ∧
     ∀ r ∈ (runBatch pf cfg files
        ⟨[], (runBatch pf cfg files ⟨[], fs0, 0, 0⟩).fs, 0, 0⟩).results,
       r.success = true ∧ r.processing_decision = "跳过已存在文件") := by
  refine ⟨fun v env fs out hout hmem =>
    extractAudio_skip pf cfg v env fs out hout hskip hmem, ?_⟩
  have hrun1 := runBatch_good pf cfg files hgood ⟨[], fs0, 0, 0⟩
  have hpre : ∀ x ∈ files, ∃ out, outPathOf pf cfg x = some out ∧
      out ∈ (BatchState.mk [] (runBatch pf cfg files ⟨[], fs0, 0, 0⟩).fs 0 0).fs := by
    intro x hx
    obtain ⟨_, _, out, hout⟩ := hgood x hx
    exact ⟨out, hout, hrun1.2 x hx out hout⟩
  have hrun2 := runBatch_all_skip pf cfg files hskip
    ⟨[], (runBatch pf cfg files ⟨[], fs0, 0, 0⟩).fs, 0, 0⟩ hpre
  refine ⟨hrun2.2.1, ?_⟩
  intro r hr
  rcases hrun2.2.2 r hr with h | h
  · exact absurd h (List.not_mem_nil r)
  · exact h

/-- C7 counterexample: one oversized file (600 MiB output, compressed to
`.mp3` on the first run).  The first run succeeds, but the second run
re-transcodes it — the computed `.aac` path no longer exists, so the
claimed runs-twice idempotence fails. -/
theorem C7_second_run_counterexample :
    ((runBatch pfNeg20 cfgSame [(videoA, envOversize)] ⟨[], ∅, 0, 0⟩).results.all
      (fun r => r.success)) = true ∧
    (runBatch pfNeg20 cfgSame [(videoA, envOversize)]
      ⟨[], (runBatch pfNeg20 cfgSame [(videoA, envOversize)] ⟨[], ∅, 0, 0⟩).fs,
        0, 0⟩).transcodes = 1 ∧
    ¬(∀ r ∈ (runBatch pfNeg20 cfgSame [(videoA, envOversize)]
        ⟨[], (runBatch pfNeg20 cfgSame [(videoA, envOversize)] ⟨[], ∅, 0, 0⟩).fs,
          0, 0⟩).results,
      r.processing_decision = "跳过已存在文件") := by
  decide

/-- C7 witness: the amended statement at a one-file batch whose output is
small (1 KiB), so the second run is a pure skip. -/
theorem C7_skip_existing_idempotence_witness :
    (∀ v env fs out, outPathOf pfNeg20 cfgSame (v, env) = some out → out ∈ fs →
      (extractAudio pfNeg20 cfgSame v env fs).result.success = true ∧
      (extractAudio pfNeg20 cfgSame v env fs).result.processing_decision = "跳过已存在文件" ∧
      (extractAudio pfNeg20 cfgSame v env fs).fs = fs ∧
      (extractAudio pfNeg20 cfgSame v env fs).execRan = false) ∧
    ((runBatch pfNeg20 cfgSame [(videoA, envSmall)]
        ⟨[], (runBatch pfNeg20 cfgSame [(videoA, envSmall)] ⟨[], ∅, 0, 0⟩).fs,
          0, 0⟩).transcodes = 0 ∧
     ∀ r ∈ (runBatch pfNeg20 cfgSame [(videoA, envSmall)]
        ⟨[], (runBatch pfNeg20 cfgSame [(videoA, envSmall)] ⟨[], ∅, 0, 0⟩).fs,
          0, 0⟩).results,
       r.success = true ∧ r.processing_decision = "跳过已存在文件") :=
  C7_skip_existing_idempotence pfNeg20 cfgSame [(videoA, envSmall)] ∅ rfl
    (by
      intro x hx
      simp only [List.mem_singleton] at hx
      subst hx
      exact ⟨rfl, by decide, ⟨⟨[], "a", ".aac"⟩, by decide⟩⟩)

end AudioExt
